import Mathlib

/-!
Formal model of the redirect-preview resolution engine of the
purview-preview-func repository, `src/shared/db_access.py`.

The Python functions are shallowly embedded as Lean functions, keeping the
source's names.  Effects are made explicit: the wall clock, the HTTP
transport, `json.loads` and the lender-configuration files on disk become
oracle parameters of the functions that use them, and the observable
effects a function performs (HTTP requests issued, back-off sleeps, remote
lookup calls) become extra outputs.  Python exceptions are modelled with
`Except PyErr`; a Python function that can only return becomes a plain
function.
-/

namespace Purview

/-- ASCII model of the character class stripped by Python `str.strip()`
(space, tab, newline, carriage return, vertical tab, form feed). -/
def pyIsSpace (c : Char) : Bool :=
  c = ' ' || c = Char.ofNat 9 || c = Char.ofNat 10 || c = Char.ofNat 13 ||
    c = Char.ofNat 11 || c = Char.ofNat 12

/-- Model of Python `str.lstrip` for a character predicate. -/
def pyLStripP (p : Char → Bool) (s : String) : String :=
  ⟨s.data.dropWhile p⟩

/-- Model of Python `str.rstrip` for a character predicate. -/
def pyRStripP (p : Char → Bool) (s : String) : String :=
  ⟨(s.data.reverse.dropWhile p).reverse⟩

/-- Model of Python `str.strip` for a character predicate: remove the
characters satisfying `p` from both ends. -/
def pyStripP (p : Char → Bool) (s : String) : String :=
  pyRStripP p (pyLStripP p s)

/-- Model of Python `str.strip()` with no argument (whitespace strip),
as used on the token at db_access.py line 290. -/
def pyStrip (s : String) : String := pyStripP pyIsSpace s

/-- The UTF-8 encoding of one character, as a list of byte values. -/
def utf8Bytes (c : Char) : List Nat :=
  let n := c.toNat
  if n < 128 then [n]
  else if n < 2048 then [192 + n / 64, 128 + n % 64]
  else if n < 65536 then [224 + n / 4096, 128 + (n / 64) % 64, 128 + n % 64]
  else [240 + n / 262144, 128 + (n / 4096) % 64, 128 + (n / 64) % 64, 128 + n % 64]

/-- Uppercase hexadecimal digit for `n < 16`. -/
def hexDigitU (n : Nat) : Char :=
  if n < 10 then Char.ofNat (48 + n) else Char.ofNat (55 + n)

/-- The `%XX` percent-encoding of one byte, uppercase, exactly as
`urllib.parse.quote` emits it. -/
def percentByte (b : Nat) : String :=
  ⟨['%', hexDigitU (b / 16), hexDigitU (b % 16)]⟩

/-- Concatenation of a list of strings. -/
def strConcat : List String → String
  | [] => ""
  | s :: rest => s ++ strConcat rest

/-- The byte values that `urllib.parse.quote` never encodes
(ASCII letters, digits, and the characters `_ . - ~`), tested at the
character level, plus the caller-supplied `safe` characters. -/
def quoteSafeB (safe : List Char) (c : Char) : Bool :=
  c.isAlphanum || c = '_' || c = '.' || c = '-' || c = '~' || safe.contains c

/-- Character-level model of `urllib.parse.quote(s, safe=...)`: a safe
character is passed through, any other character has each byte of its
UTF-8 encoding percent-encoded.  This is equivalent to CPython's
byte-level loop because every safe byte is ASCII, hence its own
one-byte UTF-8 encoding. -/
def quoteChar (safe : List Char) (c : Char) : String :=
  if quoteSafeB safe c then String.singleton c
  else strConcat ((utf8Bytes c).map percentByte)

/-- Model of `urllib.parse.quote(s, safe)` over a whole string. -/
def pyQuote (safe : List Char) (s : String) : String :=
  strConcat (s.data.map (quoteChar safe))

/-- The `safe=" ='"` argument of the `parse.quote` call at
db_access.py line 174: space, equals sign and single quote. -/
def odataSafe : List Char := [' ', '=', Char.ofNat 39]

/-- `_build_dab_url_for_token` (db_access.py lines 165-175), with the
configured `DAB_BASE_URL` and `DAB_REDIRECTS_PATH` as parameters:
`base.rstrip("/") + "/" + path.strip("/") + "?$filter=" +
quote("token eq '" + token + "'", safe=" ='") + "&$top=1"`. -/
def _build_dab_url_for_token (base path token : String) : String :=
  let b := pyRStripP (fun c => c = '/') base
  let p := pyStripP (fun c => c = '/') path
  let filterValue := "token eq '" ++ token ++ "'"
  let encodedFilter := pyQuote odataSafe filterValue
  b ++ "/" ++ p ++ "?$filter=" ++ encodedFilter ++ "&$top=1"

/-- A character the OData filter quoting leaves untouched: the always-safe
set of `urllib.parse.quote` together with space, `=` and single quote. -/
def odataSafeChar (c : Char) : Bool := quoteSafeB odataSafe c

/-- The outcome of one HTTP attempt, as `_http_get_with_retries`
(db_access.py lines 178-221) observes it: `urlopen` returned a response
with a status and a decoded body, raised an `HTTPError` carrying a code,
raised a `URLError` (transport failure), or raised some other exception
(the catch-all branch, e.g. a body-decode failure). -/
inductive HttpAttempt where
  | response (status : Nat) (body : String)
  | httpError (code : Nat)
  | urlError
  | otherError
deriving DecidableEq

/-- The action the body of the retry loop takes on one attempt. -/
inductive AttemptClass where
  | success (body : String)
  | clientStop
  | retryable
deriving DecidableEq

/-- The branch structure of the loop body of `_http_get_with_retries`:
a 2xx response returns its body; a 4xx status or 4xx `HTTPError` returns
`None` at once (client error, no retry); every other status, `HTTPError`
code, `URLError` or unexpected exception falls through to the retry
decision. -/
def classify : HttpAttempt → AttemptClass
  | .response s b =>
      if 200 ≤ s ∧ s < 300 then .success b
      else if 400 ≤ s ∧ s < 500 then .clientStop
      else .retryable
  | .httpError c => if 400 ≤ c ∧ c < 500 then .clientStop else .retryable
  | .urlError => .retryable
  | .otherError => .retryable

/-- The `while True` loop of `_http_get_with_retries`, with the network
modelled by the oracle `http : attempt number → outcome` and the loop's
effects returned explicitly: `(returned body?, number of requests made,
back-off sleeps performed in order)`.  `fuel` bounds the loop; the loop
exits by `attempt >= retries` before fuel ever runs out when called with
`fuel = retries + 1 - attempt`. -/
def httpLoop (http : Nat → HttpAttempt) (retries : Nat) (backoff : ℚ) :
    Nat → Nat → Option String × Nat × List ℚ
  | _, 0 => (none, 0, [])
  | attempt, fuel + 1 =>
    match classify (http attempt) with
    | .success b => (some b, 1, [])
    | .clientStop => (none, 1, [])
    | .retryable =>
      if retries ≤ attempt then (none, 1, [])
      else
        let rest := httpLoop http retries backoff (attempt + 1) fuel
        (rest.1, rest.2.1 + 1, backoff * 2 ^ attempt :: rest.2.2)

/-- `_http_get_with_retries` (db_access.py lines 178-221): the loop
started at `attempt = 0`.  The sleep performed after failed attempt `k`
is `backoff * 2 ** k` (line 219). -/
def _http_get_with_retries (http : Nat → HttpAttempt) (retries : Nat) (backoff : ℚ) :
    Option String × Nat × List ℚ :=
  httpLoop http retries backoff 0 (retries + 1)

/-- A 4xx-class attempt outcome (status or `HTTPError` code in 400-499). -/
def isClientError : HttpAttempt → Bool
  | .response s _ => decide (400 ≤ s ∧ s < 500)
  | .httpError c => decide (400 ≤ c ∧ c < 500)
  | _ => false

/-- A transport-level failure or 5xx-class outcome. -/
def isTransportOr5xx : HttpAttempt → Bool
  | .response s _ => decide (500 ≤ s ∧ s < 600)
  | .httpError c => decide (500 ≤ c ∧ c < 600)
  | .urlError => true
  | .otherError => true

/-- An outcome the HTTP stack can actually deliver to this loop: a 2xx
response body (urlopen returns only on success), or a 4xx/5xx error
status, or a transport-level failure. -/
def realistic : HttpAttempt → Bool
  | .response s _ => decide (200 ≤ s ∧ s < 300 ∨ 400 ≤ s ∧ s < 600)
  | .httpError c => decide (400 ≤ c ∧ c < 600)
  | .urlError => true
  | .otherError => true

/-- A parsed JSON document / Python value as `json.loads` produces it:
`None`, a bool, a number, a string, a list, or a dict (modelled as an
association list with distinct keys, in insertion order). -/
inductive Json where
  | null
  | bool (b : Bool)
  | num (n : Int)
  | str (s : String)
  | arr (elems : List Json)
  | obj (fields : List (String × Json))

/-- Python truthiness of a value (`if not x`). -/
def Json.truthy : Json → Bool
  | .null => false
  | .bool b => b
  | .num n => decide (n ≠ 0)
  | .str s => decide (s ≠ "")
  | .arr l => !l.isEmpty
  | .obj l => !l.isEmpty

/-- Python `a or b`: `a` if truthy, else `b`. -/
def pyOr (a b : Json) : Json := if a.truthy then a else b

/-- Python `dict.get(k)` on a dict's fields: the value under `k`, or
`None` when absent. -/
def jget (fields : List (String × Json)) (key : String) : Json :=
  match fields with
  | [] => .null
  | (k, v) :: rest => if k = key then v else jget rest key

/-- ASCII model of Python `str.lower` on one character. -/
def pyCharLower (c : Char) : Char :=
  if 'A' ≤ c ∧ c ≤ 'Z' then Char.ofNat (c.toNat + 32) else c

/-- Model of Python `str.replace(old, new)` for one-character arguments:
each occurrence of `old` becomes `new`. -/
def replaceCharList (old new : Char) : List Char → List Char
  | [] => []
  | c :: cs => (if c = old then new else c) :: replaceCharList old new cs

/-- `_normalize_lender` (db_access.py lines 130-131):
`name.strip().lower().replace(" ", "_")` — strip, lowercase, then
replace each space character (only the space character) by an
underscore. -/
def _normalize_lender (name : String) : String :=
  ⟨replaceCharList ' ' '_' ((pyStrip name).data.map pyCharLower)⟩

/-- Modelled from the spec: §3's partner-key normalization, "trim,
lowercase, replace whitespace runs with a single underscore" — every
maximal run of consecutive whitespace characters becomes exactly one
underscore.  Defined to compare with `_normalize_lender`. -/
def collapseWsRuns : List Char → List Char
  | [] => []
  | [c] => if pyIsSpace c then ['_'] else [c]
  | c :: d :: rest =>
    if pyIsSpace c && pyIsSpace d then collapseWsRuns (d :: rest)
    else (if pyIsSpace c then '_' else c) :: collapseWsRuns (d :: rest)

/-- The spec's wording of the normalized partner key (trim, lowercase,
whitespace runs to a single underscore). -/
def specNormalizeKey (name : String) : String :=
  ⟨collapseWsRuns ((pyStrip name).data.map pyCharLower)⟩

/-- `LruTtlCache` (db_access.py lines 70-103), the lender-config cache:
an ordered map from key to `(value, inserted-at timestamp)`, first entry
least recently used.  Timestamps are rationals (Python `time.time()`
values); the clock is passed explicitly to `get`/`set`. -/
structure LruTtlCache where
  max_size : Nat
  ttl : ℚ
  store : List (String × Json × ℚ)

/-- `del self.store[key]`: remove the binding of `key` (keys are unique,
so removing the first occurrence models the dict delete). -/
def eraseKey (key : String) : List (String × Json × ℚ) → List (String × Json × ℚ)
  | [] => []
  | (k, e) :: rest => if k = key then rest else (k, e) :: eraseKey key rest

/-- `self.store.get(key)`. -/
def lookupStore (key : String) : List (String × Json × ℚ) → Option (Json × ℚ)
  | [] => none
  | (k, e) :: rest => if k = key then some e else lookupStore key rest

/-- The `while len(self.store) > self.max_size: self.store.popitem(last=False)`
loop of `LruTtlCache.set`, fuelled: each iteration pops one entry from
the least-recently-used front, so `l.length` iterations always suffice. -/
def popOverFuel (maxSize : Nat) : Nat → List (String × Json × ℚ) → List (String × Json × ℚ)
  | 0, l => l
  | fuel + 1, l => if l.length ≤ maxSize then l else popOverFuel maxSize fuel l.tail

/-- The eviction loop of `LruTtlCache.set`: pop from the front until the
size bound holds. -/
def popOver (maxSize : Nat) (l : List (String × Json × ℚ)) : List (String × Json × ℚ) :=
  popOverFuel maxSize l.length l

/-- `LruTtlCache.get` (lines 77-89): a missing key is a miss; an entry
older than the TTL is deleted and reported as a miss; a fresh hit is
moved to the most-recent end (`move_to_end`) and its value returned. -/
def LruTtlCache.get (c : LruTtlCache) (key : String) (now : ℚ) :
    Option Json × LruTtlCache :=
  match lookupStore key c.store with
  | none => (none, c)
  | some (data, ts) =>
    if now - ts > c.ttl then (none, { c with store := eraseKey key c.store })
    else (some data, { c with store := eraseKey key c.store ++ [(key, data, ts)] })

/-- `LruTtlCache.set` (lines 91-98): delete any old binding, append the
new entry at the most-recent end with the current time, then evict from
the least-recently-used end while over capacity. -/
def LruTtlCache.set (c : LruTtlCache) (key : String) (value : Json) (now : ℚ) :
    LruTtlCache :=
  { c with store := popOver c.max_size (eraseKey key c.store ++ [(key, value, now)]) }

/-- The disk half of `_load_lender_json` (lines 144-159), with the
lender JSON directory as the oracle `disk : normalized key ↦ file`
(`none` = file missing, `some none` = open/parse raised, `some (some d)`
= parsed document): a missing file or a failed parse yields `None`
without caching; a parsed document is cached under the normalized key
and returned. -/
def loadFromDisk (disk : String → Option (Option Json)) (now : ℚ)
    (cache : LruTtlCache) (normalized : String) : Option Json × LruTtlCache :=
  match disk normalized with
  | none => (none, cache)
  | some none => (none, cache)
  | some (some data) => (some data, cache.set normalized data now)

/-- `_load_lender_json` (db_access.py lines 134-159): normalize the
lender name, consult the cache, and fall back to the disk oracle.  A
cached parsed `null` is indistinguishable from a miss in the Python
(`if cached is not None`), hence the `some Json.null` arm. -/
def _load_lender_json (disk : String → Option (Option Json)) (now : ℚ)
    (cache : LruTtlCache) (lender_name : String) : Option Json × LruTtlCache :=
  let normalized := _normalize_lender lender_name
  let hit := cache.get normalized now
  match hit.1 with
  | some Json.null => loadFromDisk disk now hit.2 normalized
  | some d => (some d, hit.2)
  | none => loadFromDisk disk now hit.2 normalized

/-- A Python exception class that can escape the modelled code paths. -/
inductive PyErr where
  | attributeError
deriving DecidableEq

/-- The characters `urllib.parse.urlsplit` removes anywhere in the URL
before parsing (tab, carriage return, newline). -/
def urlRemoveUnsafe (l : List Char) : List Char :=
  l.filter (fun c => !(c = Char.ofNat 9 || c = Char.ofNat 13 || c = Char.ofNat 10))

/-- A scheme character of `urllib.parse.urlsplit` (letters, digits,
`+`, `-`, `.`). -/
def isSchemeChar (c : Char) : Bool :=
  c.isAlphanum || c = '+' || c = '-' || c = '.'

/-- Scheme extraction of `urllib.parse.urlsplit`: text before the first
colon, when non-empty, starting with an ASCII letter and made of scheme
characters, is the scheme (lowercased) and is removed, together with the
colon. -/
def splitScheme (l : List Char) : Option (List Char × List Char) :=
  let before := l.takeWhile (fun c => !(c = ':'))
  match before with
  | [] => none
  | c :: _ =>
    if decide (before.length < l.length) && c.isAlpha && before.all isSchemeChar then
      some (before.map pyCharLower, l.drop (before.length + 1))
    else none

/-- The netloc of `urllib.parse.urlsplit`: after a leading `//`, up to
the next `/`, `?` or `#`. -/
def takeNetloc (l : List Char) : List Char :=
  l.takeWhile (fun c => !(c = '/' || c = '?' || c = '#'))

/-- `_is_valid_http_url` (db_access.py lines 110-124) over a Python
value: false on a falsy value; `urlparse` on a non-string raises, which
the function's `except` turns into false; on a string it requires scheme
`http` or `https` and a non-empty netloc.  The embedded `urlparse` is
the scheme/netloc fragment of `urllib.parse.urlsplit`: strip leading
control-or-space characters, remove tab/CR/LF anywhere, take the scheme
before a colon, take the netloc after `//` up to `/?#`; an unbalanced
square bracket in the netloc raises `ValueError` (caught, hence false). -/
def _is_valid_http_url : Json → Bool
  | .str url =>
    if url = "" then false
    else
      let u := urlRemoveUnsafe ((pyLStripP (fun c => c.toNat ≤ 32) url).data)
      match splitScheme u with
      | none => false
      | some (scheme, rest) =>
        if decide (scheme = "http".data) || decide (scheme = "https".data) then
          match rest with
          | '/' :: '/' :: r =>
            let netloc := takeNetloc r
            decide (netloc ≠ []) && (netloc.contains '[' == netloc.contains ']')
          | _ => false
        else false
  | _ => false

/-- `"value" in payload` for a dict's fields. -/
def hasKey (fields : List (String × Json)) (key : String) : Bool :=
  match fields with
  | [] => false
  | (k, _) :: rest => k = key || hasKey rest key

/-- The validated row `_dab_lookup` returns (db_access.py lines
268-273): destination, lender, mobile and campaign as the Python values
found in the candidate row. -/
structure Row where
  destination_url : Json
  lender : Json
  mobile : Json
  campaign_id : Json

/-- The destination alias chain of db_access.py line 255:
`row.get("destination_url") or row.get("dest_url") or
row.get("destination") or row.get("url")`. -/
def rowDestination (fields : List (String × Json)) : Json :=
  pyOr (pyOr (pyOr (jget fields "destination_url") (jget fields "dest_url"))
    (jget fields "destination")) (jget fields "url")

/-- Lines 250-273 of `_dab_lookup`: the `if not row` guard, the field
extraction and the strict validation.  A falsy candidate row yields
`None`; `.get` on a truthy non-dict candidate raises `AttributeError`
(nothing in db_access.py catches it); a dict row is accepted only when
its destination validates and its lender (only the `lender` key is
read) is truthy. -/
def validateRow (row : Json) : Except PyErr (Option Row) :=
  if !row.truthy then .ok none
  else
    match row with
    | .obj fields =>
      let destination := rowDestination fields
      let lender := jget fields "lender"
      let mobile := pyOr (jget fields "mobile") (jget fields "msisdn")
      let campaign_id := pyOr (jget fields "campaign_id") (jget fields "campaign")
      if !destination.truthy || !(_is_valid_http_url destination) then .ok none
      else if !lender.truthy then .ok none
      else .ok (some ⟨destination, lender, mobile, campaign_id⟩)
    | _ => .error .attributeError

/-- Lines 244-273 of `_dab_lookup`, from the parsed payload on: unwrap
the OData `value` envelope when present, treat a falsy result as empty,
pick the first element of a list (or the dict itself), then validate. -/
def dabPayloadToRow (payload : Json) : Except PyErr (Option Row) :=
  let rows :=
    match payload with
    | .obj fields => if hasKey fields "value" then jget fields "value" else payload
    | _ => payload
  if !rows.truthy then .ok none
  else
    let row? : Option Json :=
      match rows with
      | .arr (x :: _) => some x
      | .arr [] => none
      | .obj _ => some rows
      | _ => none
    match row? with
    | none => .ok none
    | some r => validateRow r

/-- The effect oracles and configuration `shared/db_access.py` reads:
the configured DAB base URL and path; retry count and back-off base; the
HTTP transport (`url ↦ attempt number ↦ outcome`); the `json.loads`
outcome per body (`none` = raises); the lender JSON directory
(`normalized key ↦ none` = file missing, `some none` = open/parse
raises, `some (some d)` = parsed document); the clock; and the
system-wide default image URL and theme color imported from
`shared.config`. -/
structure DabEnv where
  baseUrl : String
  redirectsPath : String
  retries : Nat
  backoff : ℚ
  http : String → Nat → HttpAttempt
  loads : String → Option Json
  disk : String → Option (Option Json)
  now : ℚ
  defaultImage : String
  defaultColor : String

/-- `_dab_lookup` (db_access.py lines 224-273): build the URL, fetch
with retries, handle a missing/empty body and a JSON decode failure as
`None`, then extract and validate the row. -/
def _dab_lookup (env : DabEnv) (token : String) : Except PyErr (Option Row) :=
  let url := _build_dab_url_for_token env.baseUrl env.redirectsPath token
  let body := (_http_get_with_retries (env.http url) env.retries env.backoff).1
  match body with
  | none => .ok none
  | some b =>
    if b = "" then .ok none
    else
      match env.loads b with
      | none => .ok none
      | some payload => dabPayloadToRow payload

/-- `shared.models.RedirectPreview`: the merged preview record.  Field
values are Python objects (config fields need not be strings), the
metadata is the `meta` dict in insertion order. -/
structure RedirectPreview where
  token : String
  title : Json
  description : Json
  image_url : Json
  theme_color : Json
  target_url : Json
  canonical_url : Json
  meta : List (String × Json)

/-- `get_redirect_preview` (db_access.py lines 279-338).  The result
carries the possibly-updated lender cache and the number of calls made
to `_dab_lookup` (0 or 1), making the "no remote call" property
expressible.  A non-string lender raises `AttributeError` inside
`_normalize_lender` (`name.strip()`), and a truthy non-dict config
raises at `cfg.get("title")`; neither is caught anywhere in
db_access.py, so both surface as `.error`. -/
def get_redirect_preview (env : DabEnv) (cache : LruTtlCache) (token : Option String) :
    Except PyErr (Option RedirectPreview × LruTtlCache × Nat) :=
  match token with
  | none => .ok (none, cache, 0)
  | some t0 =>
    if t0 = "" then .ok (none, cache, 0)
    else
      let t := pyStrip t0
      if t = "" then .ok (none, cache, 0)
      else
        match _dab_lookup env t with
        | .error e => .error e
        | .ok none => .ok (none, cache, 1)
        | .ok (some row) =>
          match row.lender with
          | .str lname =>
            let loaded := _load_lender_json env.disk env.now cache lname
            let cfgPy : Json := match loaded.1 with | some j => j | none => Json.null
            if !cfgPy.truthy then
              .ok (some {
                token := t
                title := .str "Your loan preview is ready"
                description := .str "Tap to view your personalised loan offer."
                image_url := .str env.defaultImage
                theme_color := .str env.defaultColor
                target_url := row.destination_url
                canonical_url := row.destination_url
                meta := [("lender", row.lender), ("mobile", row.mobile),
                  ("campaign_id", row.campaign_id), ("fallback", .bool true)] },
                loaded.2, 1)
            else
              match cfgPy with
              | .obj cfields =>
                .ok (some {
                  token := t
                  title := pyOr (jget cfields "title")
                    (.str ("Your " ++ lname ++ " loan preview is ready"))
                  description := pyOr (jget cfields "description") (.str "")
                  image_url := pyOr (jget cfields "image_url") (.str env.defaultImage)
                  theme_color := pyOr (jget cfields "theme_color") (.str env.defaultColor)
                  target_url := row.destination_url
                  canonical_url := row.destination_url
                  meta := [("lender", row.lender), ("mobile", row.mobile),
                    ("campaign_id", row.campaign_id)] },
                  loaded.2, 1)
              | _ => .error .attributeError
          | _ => .error .attributeError

/-- A concrete environment for evaluating the resolver on closed
inputs: the default base URL shape and system defaults, a transport
returning an empty-object body, no parses, no lender files on disk. -/
def sampleEnv : DabEnv where
  baseUrl := "https://host/api"
  redirectsPath := "redirects"
  retries := 2
  backoff := 7 / 20
  http := fun _ _ => HttpAttempt.response 200 "{}"
  loads := fun _ => none
  disk := fun _ => none
  now := 0
  defaultImage := "https://cdn/default-hero.jpg"
  defaultColor := "#0E5DF2"

/-- An empty lender cache with the default capacity 128 and TTL 3600. -/
def emptyCache : LruTtlCache := ⟨128, 3600, []⟩

/-- Whether `_dab_lookup`'s validation accepts a candidate dict row. -/
def acceptsRow (fields : List (String × Json)) : Bool :=
  match validateRow (Json.obj fields) with
  | .ok (some _) => true
  | _ => false

/-- Modelled from the spec: §4.2's row-acceptance condition as the claim
words it — the destination drawn from the alias keys
`destination_url`/`dest_url`/`destination`/`url` (first non-empty wins)
parses as an absolute http(s) URL, and the partner drawn from either of
the alias keys `lender`/`partner` is non-empty. -/
def specRowAccepted (fields : List (String × Json)) : Bool :=
  (rowDestination fields).truthy && _is_valid_http_url (rowDestination fields) &&
    (pyOr (jget fields "lender") (jget fields "partner")).truthy

/-- The string content of a config field, for claim statements: a
missing field (Python `None`) counts as the empty string, a string is
itself, anything else has no string content. -/
def Json.asOptStr : Json → Option String
  | .null => some ""
  | .str s => some s
  | _ => none

/-- The parsed partner config used by concrete resolver runs. -/
def cfgPayMe : Json :=
  Json.obj [("title", Json.str "Check your PayMe offer"),
    ("image_url", Json.str "https://cdn/payme.jpg")]

/-- A concrete environment whose lookup returns one valid row for
partner `payme` and whose disk holds `payme`'s config. -/
def env2 : DabEnv :=
  { sampleEnv with
    http := fun _ _ => HttpAttempt.response 200 "body"
    loads := fun _ => some (Json.obj [("value", Json.arr [Json.obj
      [("destination_url", Json.str "https://partner.example/offer"),
       ("lender", Json.str "payme")]])])
    disk := fun k => if k = "payme" then some (some cfgPayMe) else none }

/-- The row `env2`'s lookup yields. -/
def rowPayMe : Row :=
  ⟨Json.str "https://partner.example/offer", Json.str "payme", Json.null, Json.null⟩

/-- `emptyCache` after caching `payme`'s config at time 0. -/
def cacheAfterPayMe : LruTtlCache := ⟨128, 3600, [("payme", cfgPayMe, 0)]⟩

/-- A concrete environment whose lookup returns one valid row for the
partner `ghost`, which has no config file on disk. -/
def env3 : DabEnv :=
  { sampleEnv with
    http := fun _ _ => HttpAttempt.response 200 "body"
    loads := fun _ => some (Json.obj [("value", Json.arr [Json.obj
      [("destination_url", Json.str "https://partner.example/offer"),
       ("lender", Json.str "ghost")]])]) }

/-- The record `env3` yields for the token ` PCAE7a `. -/
def pvGhost : RedirectPreview where
  token := "PCAE7a"
  title := Json.str "Your loan preview is ready"
  description := Json.str "Tap to view your personalised loan offer."
  image_url := Json.str "https://cdn/default-hero.jpg"
  theme_color := Json.str "#0E5DF2"
  target_url := Json.str "https://partner.example/offer"
  canonical_url := Json.str "https://partner.example/offer"
  meta := [("lender", Json.str "ghost"), ("mobile", Json.null),
    ("campaign_id", Json.null), ("fallback", Json.bool true)]

theorem quoteChar_safe {c : Char} (h : odataSafeChar c = true) :
    quoteChar odataSafe c = String.singleton c := by
  unfold odataSafeChar at h
  simp [quoteChar, h]

theorem strConcat_quote_safe :
    ∀ l : List Char, l.all odataSafeChar →
      strConcat (l.map (quoteChar odataSafe)) = ⟨l⟩
  | [], _ => rfl
  | c :: cs, h => by
      rw [List.all_cons, Bool.and_eq_true] at h
      show quoteChar odataSafe c ++ strConcat (cs.map (quoteChar odataSafe)) = _
      rw [quoteChar_safe h.1, strConcat_quote_safe cs h.2]
      show String.mk ([c] ++ cs) = String.mk (c :: cs)
      rfl

theorem pyQuote_safe (s : String) (h : s.data.all odataSafeChar) :
    pyQuote odataSafe s = s := by
  unfold pyQuote
  rw [strConcat_quote_safe s.data h]

theorem data_append (a b : String) : (a ++ b).data = a.data ++ b.data := rfl

/-- C6, counterexample: the claim says the constructed lookup URL carries
the filter with the spaces percent-encoded
(`$filter=token%20eq%20'...'`).  The code passes `safe=" ='"` to
`parse.quote`, so the spaces stay literal: on the concrete token
`PCAE7a` with base `https://host/api` and path `redirects` the URL is
`.../redirects?$filter=token eq 'PCAE7a'&$top=1`, not the `%20` form
the claim states. -/
theorem c6_counterexample :
    _build_dab_url_for_token "https://host/api" "redirects" "PCAE7a"
        = "https://host/api/redirects?$filter=token eq 'PCAE7a'&$top=1" ∧
      _build_dab_url_for_token "https://host/api" "redirects" "PCAE7a"
        ≠ "https://host/api/redirects?$filter=token%20eq%20'PCAE7a'&$top=1" := by
  constructor
  · decide
  · decide

/-- C6, amended: for every configured base, path, and token whose
characters are ASCII alphanumerics or in `_.-~ ='`, the constructed
lookup URL is `{base minus trailing slashes}/{path minus surrounding
slashes}?$filter=token eq '{token}'&$top=1` — the space stays a literal
space (it is in the quote call's safe set, so it is not `%20`-encoded),
the single quotes and the token pass through unescaped, and any path
prefix of the configured base (such as a trailing `/api`) is retained. -/
theorem c6_url_construction (base path token : String)
    (h : token.data.all odataSafeChar = true) :
    _build_dab_url_for_token base path token =
      pyRStripP (fun c => c = '/') base ++ "/" ++ pyStripP (fun c => c = '/') path ++
        "?$filter=" ++ ("token eq '" ++ token ++ "'") ++ "&$top=1" := by
  show pyRStripP (fun c => c = '/') base ++ "/" ++ pyStripP (fun c => c = '/') path ++
      "?$filter=" ++ pyQuote odataSafe ("token eq '" ++ token ++ "'") ++ "&$top=1" = _
  rw [pyQuote_safe]
  rw [data_append, data_append, List.all_append, List.all_append]
  rw [h]
  decide

/-- C6 witness: the amended URL shape evaluated on the concrete token
`PCAE7a`, base `https://host/api` (whose `/api` prefix is retained) and
path `redirects`. -/
theorem c6_url_construction_witness :
    ("PCAE7a".data.all odataSafeChar = true) ∧
      _build_dab_url_for_token "https://host/api" "redirects" "PCAE7a" =
        pyRStripP (fun c => c = '/') "https://host/api" ++ "/" ++
          pyStripP (fun c => c = '/') "redirects" ++ "?$filter=" ++
          ("token eq '" ++ "PCAE7a" ++ "'") ++ "&$top=1" :=
  ⟨by decide, c6_url_construction "https://host/api" "redirects" "PCAE7a" (by decide)⟩

theorem retryable_isTransportOr5xx (a : HttpAttempt) (h : realistic a = true)
    (h2 : classify a = .retryable) : isTransportOr5xx a = true := by
  cases a <;> simp [classify, realistic, isTransportOr5xx] at * <;>
    (try split_ifs at h2) <;> omega

theorem clientStop_isClientError (a : HttpAttempt) (h2 : classify a = .clientStop) :
    isClientError a = true := by
  cases a <;> simp [classify, isClientError] at * <;>
    (try split_ifs at h2) <;> simp_all

theorem httpLoop_spec (http : Nat → HttpAttempt) (retries : Nat) (backoff : ℚ) :
    ∀ fuel attempt, attempt ≤ retries → retries + 1 ≤ attempt + fuel →
      let r := httpLoop http retries backoff attempt fuel
      1 ≤ r.2.1 ∧ r.2.1 + attempt ≤ retries + 1 ∧
        r.2.2 = (List.range (r.2.1 - 1)).map (fun k => backoff * 2 ^ (attempt + k)) ∧
        (∀ k, k + 1 < r.2.1 → classify (http (attempt + k)) = .retryable) ∧
        (classify (http attempt) = .clientStop → r.2.1 = 1 ∧ r.1 = none) := by
  intro fuel
  induction fuel with
  | zero => intro attempt h1 h2; omega
  | succ fuel ih =>
    intro attempt h1 h2
    cases hc : classify (http attempt) with
    | success b =>
      simp only [httpLoop, hc]
      refine ⟨le_refl 1, by omega, by simp, ?_, ?_⟩
      · intro k hk; omega
      · intro h'; cases h'
    | clientStop =>
      simp only [httpLoop, hc]
      refine ⟨le_refl 1, by omega, by simp, ?_, by simp⟩
      intro k hk; omega
    | retryable =>
      by_cases hra : retries ≤ attempt
      · simp only [httpLoop, hc, if_pos hra]
        refine ⟨le_refl 1, by omega, by simp, ?_, ?_⟩
        · intro k hk; omega
        · intro h'; cases h'
      · simp only [httpLoop, hc, if_neg hra]
        have hlt : attempt < retries := Nat.lt_of_not_le hra
        obtain ⟨hn1, hn2, hsl, hrt, _⟩ :=
          ih (attempt + 1) (by omega) (by omega)
        set rest := httpLoop http retries backoff (attempt + 1) fuel with hr
        refine ⟨by omega, by omega, ?_, ?_, ?_⟩
        · show backoff * 2 ^ attempt :: rest.2.2 =
            (List.range (rest.2.1 + 1 - 1)).map (fun k => backoff * 2 ^ (attempt + k))
          rw [hsl]
          obtain ⟨m, hm⟩ : ∃ m, rest.2.1 = m + 1 := ⟨rest.2.1 - 1, by omega⟩
          rw [hm]
          simp only [Nat.add_sub_cancel, List.range_succ_eq_map, List.map_cons,
            List.map_map]
          refine congrArg₂ _ (by rw [Nat.add_zero]) ?_
          apply List.map_congr_left
          intro k _
          show backoff * 2 ^ (attempt + 1 + k) = backoff * 2 ^ (attempt + (k + 1))
          rw [show attempt + 1 + k = attempt + (k + 1) by omega]
        · intro k hk
          match k with
          | 0 => rw [Nat.add_zero]; exact hc
          | j + 1 =>
            have := hrt j (by simp at hk; omega)
            rw [show attempt + (j + 1) = attempt + 1 + j by omega]
            exact this
        · intro h'; cases h'

/-- C5: for every sequence of attempt outcomes the HTTP stack can
deliver (2xx body, 4xx/5xx status or error code, transport failure),
every retry count `r` and back-off base `b`, `_http_get_with_retries`
makes at most `r + 1` requests; the sleep after failed attempt `k` is
`b * 2 ^ k`; every attempt that is followed by another request was a
transport-level failure or a 5xx-class response; and if the first
attempt is a 4xx-class client error the function gives up immediately
after exactly one request, returning `None`. -/
theorem c5_retry_policy (http : Nat → HttpAttempt) (retries : Nat) (backoff : ℚ)
    (hreal : ∀ k, realistic (http k) = true) :
    (_http_get_with_retries http retries backoff).2.1 ≤ retries + 1 ∧
      (_http_get_with_retries http retries backoff).2.2 =
        (List.range ((_http_get_with_retries http retries backoff).2.1 - 1)).map
          (fun k => backoff * 2 ^ k) ∧
      (∀ k, k + 1 < (_http_get_with_retries http retries backoff).2.1 →
        isTransportOr5xx (http k) = true) ∧
      (isClientError (http 0) = true →
        (_http_get_with_retries http retries backoff).2.1 = 1 ∧
          (_http_get_with_retries http retries backoff).1 = none) := by
  obtain ⟨h1, h2, h3, h4, h5⟩ :=
    httpLoop_spec http retries backoff (retries + 1) 0 (by omega) (by omega)
  simp only [_http_get_with_retries]
  refine ⟨by omega, ?_, ?_, ?_⟩
  · simpa using h3
  · intro k hk
    exact retryable_isTransportOr5xx _ (hreal k) (by simpa using h4 k hk)
  · intro hce
    apply h5
    cases hcl : classify (http 0) with
    | success b =>
      exfalso
      cases ha : http 0 <;>
        (rw [ha] at hcl hce
         try simp [classify, isClientError] at hcl hce
         try split_ifs at hcl
         try omega)
    | clientStop => rfl
    | retryable =>
      exfalso
      cases ha : http 0 <;>
        (rw [ha] at hcl hce
         try simp [classify, isClientError] at hcl hce
         try split_ifs at hcl
         try omega)

/-- C5 witness: a stub that always answers HTTP 400 is called exactly
once (no retry, no sleeps) with the default retry count 2 and back-off
0.35, and the lookup fails. -/
theorem c5_retry_policy_witness :
    realistic (HttpAttempt.httpError 400) = true ∧
      isClientError (HttpAttempt.httpError 400) = true ∧
      (_http_get_with_retries (fun _ => HttpAttempt.httpError 400) 2 (7 / 20)).2.1 = 1 ∧
      (_http_get_with_retries (fun _ => HttpAttempt.httpError 400) 2 (7 / 20)).1 = none := by
  refine ⟨by decide, by decide, ?_⟩
  exact (c5_retry_policy (fun _ => HttpAttempt.httpError 400) 2 (7 / 20)
    (fun _ => rfl)).2.2.2 (by decide)

theorem replaceCharList_eq_map (old new : Char) :
    ∀ l : List Char, replaceCharList old new l = l.map (fun c => if c = old then new else c)
  | [] => rfl
  | c :: cs => by
      rw [List.map_cons, ← replaceCharList_eq_map old new cs]
      rfl

/-- C9, counterexample: the claim says the normalized partner key
replaces every run of consecutive whitespace by a single underscore.
The code runs `.replace(" ", "_")`, which turns each space character
into its own underscore: on the raw name `Pay  Me` (two spaces) the code
produces `pay__me` while the claimed normalization gives `pay_me`. -/
theorem c9_counterexample :
    _normalize_lender "Pay  Me" = "pay__me" ∧
      specNormalizeKey "Pay  Me" = "pay_me" ∧
      _normalize_lender "Pay  Me" ≠ specNormalizeKey "Pay  Me" :=
  ⟨by decide, by decide, by decide⟩

/-- C9, amended: the normalized partner key is the raw name trimmed,
lowercased, with each space character (individually, not per run; other
whitespace characters are left alone) replaced by an underscore; and any
two raw partner names that normalize to the same key resolve to the same
partner config (`_load_lender_json` consults only the normalized key,
for the cache and for the file name). -/
theorem c9_normalize_and_identity :
    (∀ name : String, _normalize_lender name =
        ⟨((pyStrip name).data.map pyCharLower).map (fun c => if c = ' ' then '_' else c)⟩) ∧
      (∀ (disk : String → Option (Option Json)) (now : ℚ) (cache : LruTtlCache)
          (a b : String), _normalize_lender a = _normalize_lender b →
            _load_lender_json disk now cache a = _load_lender_json disk now cache b) := by
  constructor
  · intro name
    unfold _normalize_lender
    rw [replaceCharList_eq_map]
  · intro disk now cache a b h
    unfold _load_lender_json
    rw [h]

/-- C9 witness: `Pay Me` and `  pay me ` normalize to the same key, and
on a concrete empty cache and disk oracle they load the same config. -/
theorem c9_normalize_and_identity_witness :
    (_normalize_lender "Pay Me" = _normalize_lender "  pay me ") ∧
      _load_lender_json (fun _ => none) 0 ⟨128, 3600, []⟩ "Pay Me" =
        _load_lender_json (fun _ => none) 0 ⟨128, 3600, []⟩ "  pay me " :=
  ⟨by decide, c9_normalize_and_identity.2 (fun _ => none) 0 ⟨128, 3600, []⟩
    "Pay Me" "  pay me " (by decide)⟩

theorem popOverFuel_eq_drop (m : Nat) :
    ∀ (fuel : Nat) (l : List (String × Json × ℚ)), l.length ≤ fuel →
      popOverFuel m fuel l = l.drop (l.length - m)
  | 0, l, h => by
      have hl : l = [] := List.eq_nil_of_length_eq_zero (Nat.le_zero.mp h)
      subst hl; simp [popOverFuel]
  | fuel + 1, l, h => by
      unfold popOverFuel
      by_cases hl : l.length ≤ m
      · rw [if_pos hl, Nat.sub_eq_zero_of_le hl, List.drop_zero]
      · rw [if_neg hl]
        cases l with
        | nil => simp at hl
        | cons a t =>
          have ht : t.length ≤ fuel := by simp at h; omega
          rw [List.tail_cons, popOverFuel_eq_drop m fuel t ht]
          have he : (a :: t).length - m = (t.length - m) + 1 := by
            simp at hl ⊢; omega
          rw [he]
          rfl

theorem popOver_eq_drop (m : Nat) (l : List (String × Json × ℚ)) :
    popOver m l = l.drop (l.length - m) :=
  popOverFuel_eq_drop m l.length l (le_refl _)

theorem eraseKey_length_le (key : String) :
    ∀ l : List (String × Json × ℚ), (eraseKey key l).length ≤ l.length
  | [] => le_refl 0
  | (k, e) :: rest => by
      unfold eraseKey
      by_cases hk : k = key
      · rw [if_pos hk]; simp
      · rw [if_neg hk]
        simp only [List.length_cons]
        exact Nat.succ_le_succ (eraseKey_length_le key rest)

theorem eraseKey_length_of_found (key : String) :
    ∀ (l : List (String × Json × ℚ)) (e : Json × ℚ),
      lookupStore key l = some e → (eraseKey key l).length + 1 = l.length
  | [], e, h => by cases h
  | (k, d) :: rest, e, h => by
      unfold eraseKey
      unfold lookupStore at h
      by_cases hk : k = key
      · rw [if_pos hk]; rfl
      · rw [if_neg hk] at h ⊢
        simp only [List.length_cons]
        rw [eraseKey_length_of_found key rest e h]

theorem eraseKey_of_not_found (key : String) :
    ∀ l : List (String × Json × ℚ), lookupStore key l = none → eraseKey key l = l
  | [], _ => rfl
  | (k, d) :: rest, h => by
      unfold eraseKey
      unfold lookupStore at h
      by_cases hk : k = key
      · rw [if_pos hk] at h; cases h
      · rw [if_neg hk] at h ⊢
        rw [eraseKey_of_not_found key rest h]

/-- C8: the lender config cache's invariants, for every cache state,
key, value and clock reading: (a) after an insert the store holds at
most `max_size` entries; (b) a read never grows the store; (c) on read,
an entry older than the TTL is deleted and reported as a miss, before
any LRU bookkeeping; (d) a fresh read-hit moves the entry to the
most-recently-used end, keeping its timestamp; (e) a write places the
entry at the most-recently-used end; (f) inserting a fresh key into a
cache at capacity evicts exactly the least-recently-used (front)
entry. -/
theorem c8_cache_invariants (c : LruTtlCache) (key : String) (v : Json) (now : ℚ) :
    ((c.set key v now).store.length ≤ c.max_size) ∧
      ((c.get key now).2.store.length ≤ c.store.length) ∧
      (∀ d ts, lookupStore key c.store = some (d, ts) → now - ts > c.ttl →
        c.get key now = (none, { c with store := eraseKey key c.store })) ∧
      (∀ d ts, lookupStore key c.store = some (d, ts) → ¬(now - ts > c.ttl) →
        c.get key now = (some d, { c with store := eraseKey key c.store ++ [(key, d, ts)] })) ∧
      (0 < c.max_size → (c.set key v now).store.getLast? = some (key, v, now)) ∧
      (lookupStore key c.store = none → c.store.length = c.max_size → 0 < c.max_size →
        (c.set key v now).store = c.store.tail ++ [(key, v, now)]) := by
  refine ⟨?_, ?_, ?_, ?_, ?_, ?_⟩
  · show (popOver c.max_size (eraseKey key c.store ++ [(key, v, now)])).length ≤ c.max_size
    rw [popOver_eq_drop, List.length_drop]
    omega
  · cases hl : lookupStore key c.store with
    | none => simp only [LruTtlCache.get, hl]; exact le_refl _
    | some e =>
      obtain ⟨d, ts⟩ := e
      by_cases hexp : now - ts > c.ttl
      · simp only [LruTtlCache.get, hl]
        rw [if_pos hexp]
        exact eraseKey_length_le key c.store
      · simp only [LruTtlCache.get, hl]
        rw [if_neg hexp]
        show (eraseKey key c.store ++ [(key, d, ts)]).length ≤ c.store.length
        rw [List.length_append]
        have := eraseKey_length_of_found key c.store (d, ts) hl
        simp only [List.length_singleton]
        omega
  · intro d ts hl hexp
    simp only [LruTtlCache.get, hl]
    rw [if_pos hexp]
  · intro d ts hl hexp
    simp only [LruTtlCache.get, hl]
    rw [if_neg hexp]
  · intro hmax
    show (popOver c.max_size (eraseKey key c.store ++ [(key, v, now)])).getLast? = _
    rw [popOver_eq_drop]
    have hle : (eraseKey key c.store ++ [(key, v, now)]).length - c.max_size ≤
        (eraseKey key c.store).length := by
      rw [List.length_append]; simp only [List.length_singleton]; omega
    rw [List.drop_append_of_le_length hle, List.getLast?_concat]
  · intro hnone hcap hmax
    show popOver c.max_size (eraseKey key c.store ++ [(key, v, now)]) = _
    rw [eraseKey_of_not_found key c.store hnone, popOver_eq_drop]
    have h1 : (c.store ++ [(key, v, now)]).length - c.max_size = 1 := by
      rw [List.length_append]; simp only [List.length_singleton]; omega
    rw [h1, List.drop_one]
    cases hs : c.store with
    | nil => rw [hs] at hcap; simp at hcap; omega
    | cons a t => rfl

/-- C8 witness: a concrete cache with capacity 2 holding `a` (oldest)
then `b`, TTL 10.  Inserting the fresh key `x` at time 2 evicts `a` and
leaves `[b, x]`, within the size bound, with `x` most recent; reading
`a` at time 20 (past the TTL) deletes it and misses. -/
theorem c8_cache_invariants_witness :
    ((LruTtlCache.mk 2 10 [("a", Json.null, 0), ("b", Json.null, 1)]).set "x" Json.null 2).store.length ≤ 2 ∧
      ((LruTtlCache.mk 2 10 [("a", Json.null, 0), ("b", Json.null, 1)]).set "x" Json.null 2).store =
        [("b", Json.null, 1), ("x", Json.null, 2)] ∧
      ((LruTtlCache.mk 2 10 [("a", Json.null, 0), ("b", Json.null, 1)]).set "x" Json.null 2).store.getLast? =
        some ("x", Json.null, 2) ∧
      (LruTtlCache.mk 2 10 [("a", Json.null, 0), ("b", Json.null, 1)]).get "a" 20 =
        (none, LruTtlCache.mk 2 10 [("b", Json.null, 1)]) := by
  obtain ⟨h1, _, h3, _, h5, h6⟩ :=
    c8_cache_invariants (LruTtlCache.mk 2 10 [("a", Json.null, 0), ("b", Json.null, 1)]) "x" Json.null 2
  refine ⟨h1, ?_, h5 (by decide), ?_⟩
  · rw [h6 rfl rfl (by decide)]
    rfl
  · obtain ⟨_, _, h3', _⟩ :=
      c8_cache_invariants (LruTtlCache.mk 2 10 [("a", Json.null, 0), ("b", Json.null, 1)]) "a" Json.null 20
    rw [h3' Json.null 0 rfl (by show (20 : ℚ) - 0 > 10; norm_num)]
    rfl

/-- C1: the claim says `get_redirect_preview` never propagates an
exception for any remote-lookup response body, naming "a JSON array
whose elements are not objects" among the bodies.  On exactly that body
(`["x"]` — a valid JSON array whose element is a string) the code takes
`row = rows[0] = "x"`, which is truthy, and then calls
`row.get("destination_url")` on a string: `AttributeError` propagates
out of `_dab_lookup` and out of `get_redirect_preview` (no handler on
that path), contradicting the claim and the spec's no-throw guarantee. -/
theorem c1_crash_on_nonobject_row :
    dabPayloadToRow (Json.arr [Json.str "x"]) = .error .attributeError ∧
      get_redirect_preview { sampleEnv with
          http := fun _ _ => HttpAttempt.response 200 "[\"x\"]",
          loads := fun _ => some (Json.arr [Json.str "x"]) }
        emptyCache (some "t") = .error .attributeError :=
  ⟨rfl, rfl⟩

/-- C7, counterexample: a candidate row carrying its partner under the
`partner` key (and a valid destination) satisfies the claim's acceptance
condition, but the code reads only `row.get("lender")` (db_access.py
line 256) and rejects the row as absent. -/
theorem c7_counterexample :
    validateRow (Json.obj [("destination_url", Json.str "https://x.example/a"),
        ("partner", Json.str "payme")]) = .ok none ∧
      specRowAccepted [("destination_url", Json.str "https://x.example/a"),
        ("partner", Json.str "payme")] = true :=
  ⟨rfl, rfl⟩

/-- C7, amended: a candidate row is accepted if and only if its
destination — drawn from `destination_url`/`dest_url`/`destination`/
`url`, first non-empty (truthy) wins — is non-empty and parses as an
absolute http(s) URL with non-empty authority, and its `lender` field
(only the `lender` key; the `partner` alias of the claim is not read) is
non-empty; any violation yields absent, not an error. -/
theorem c7_row_validation (fields : List (String × Json)) :
    (acceptsRow fields =
      ((rowDestination fields).truthy && _is_valid_http_url (rowDestination fields) &&
        (jget fields "lender").truthy)) ∧
      (acceptsRow fields = false → validateRow (Json.obj fields) = .ok none) := by
  by_cases h0 : (Json.obj fields).truthy = true
  · by_cases h1 : (rowDestination fields).truthy = true <;>
      by_cases h2 : _is_valid_http_url (rowDestination fields) = true <;>
      by_cases h3 : (jget fields "lender").truthy = true <;>
      constructor <;>
      simp_all [acceptsRow, validateRow]
  · have hnil : fields = [] := by
      cases fields with
      | nil => rfl
      | cons a t => simp [Json.truthy] at h0
    subst hnil
    exact ⟨rfl, fun _ => rfl⟩

theorem dropWhile_eq_nil_of_all {p : Char → Bool} :
    ∀ l : List Char, l.all p = true → l.dropWhile p = []
  | [], _ => rfl
  | c :: cs, h => by
      rw [List.all_cons, Bool.and_eq_true] at h
      rw [List.dropWhile_cons, if_pos h.1]
      exact dropWhile_eq_nil_of_all cs h.2

theorem pyStrip_eq_empty_of_all_space (s : String) (h : s.data.all pyIsSpace = true) :
    pyStrip s = "" := by
  unfold pyStrip pyStripP pyLStripP
  rw [dropWhile_eq_nil_of_all s.data h]
  rfl

/-- C7 witness: the amended row-validation equivalence applied to the
concrete row whose partner sits under the `partner` key: it is not
accepted, and the validation yields absent rather than an error. -/
theorem c7_row_validation_witness :
    acceptsRow [("destination_url", Json.str "https://x.example/a"),
        ("partner", Json.str "payme")] = false ∧
      validateRow (Json.obj [("destination_url", Json.str "https://x.example/a"),
        ("partner", Json.str "payme")]) = .ok none :=
  ⟨rfl, (c7_row_validation [("destination_url", Json.str "https://x.example/a"),
    ("partner", Json.str "payme")]).2 rfl⟩

/-- C4: resolving a `None` token, or any token that is empty or
whitespace-only, returns absent immediately, leaves the cache untouched
and performs zero calls to the remote lookup (`_dab_lookup` call count
0). -/
theorem c4_invalid_token (env : DabEnv) (cache : LruTtlCache) :
    get_redirect_preview env cache none = .ok (none, cache, 0) ∧
      (∀ s : String, s.data.all pyIsSpace = true →
        get_redirect_preview env cache (some s) = .ok (none, cache, 0)) := by
  refine ⟨rfl, ?_⟩
  intro s hs
  by_cases h0 : s = ""
  · subst h0; rfl
  · have h1 : pyStrip s = "" := pyStrip_eq_empty_of_all_space s hs
    simp [get_redirect_preview, if_neg h0, h1]

/-- C4 witness: the two-space token is whitespace-only and resolves to
absent with zero lookup calls on a concrete environment and cache. -/
theorem c4_invalid_token_witness :
    ("  ".data.all pyIsSpace = true) ∧
      get_redirect_preview sampleEnv emptyCache (some "  ") = .ok (none, emptyCache, 0) :=
  ⟨by decide, (c4_invalid_token sampleEnv emptyCache).2 "  " (by decide)⟩

theorem pyOr_of_asOptStr {j : Json} {s : String} (h : j.asOptStr = some s) (d : Json) :
    pyOr j d = if s = "" then d else Json.str s := by
  cases j with
  | null =>
    have h' : ("" : String) = s := by simpa [Json.asOptStr] using h
    rw [← h']
    simp [pyOr, Json.truthy]
  | str s0 =>
    have h' : s0 = s := by simpa [Json.asOptStr] using h
    subst h'
    by_cases hs : s0 = ""
    · subst hs; simp [pyOr, Json.truthy]
    · simp [pyOr, Json.truthy, hs]
  | bool b => simp [Json.asOptStr] at h
  | num n => simp [Json.asOptStr] at h
  | arr l => simp [Json.asOptStr] at h
  | obj l => simp [Json.asOptStr] at h

theorem pyOr_str_empty {j : Json} {s : String} (h : j.asOptStr = some s) :
    pyOr j (Json.str "") = Json.str s := by
  rw [pyOr_of_asOptStr h]
  by_cases hs : s = ""
  · rw [if_pos hs, hs]
  · rw [if_neg hs]

/-- C2, counterexample: on a concrete token whose lookup yields a valid
row for partner `payme` and whose config loads, the resolver's success
record is complete — but its metadata dict holds only `lender`, `mobile`
and `campaign_id`: there is no `fallback` key at all (db_access.py line
336), so the claim's "metadata fallback flag equal to false" is false —
the flag is absent, not `false`. -/
theorem c2_counterexample :
    get_redirect_preview env2 emptyCache (some "tok42") =
      .ok (some {
        token := "tok42"
        title := Json.str "Check your PayMe offer"
        description := Json.str ""
        image_url := Json.str "https://cdn/payme.jpg"
        theme_color := Json.str "#0E5DF2"
        target_url := Json.str "https://partner.example/offer"
        canonical_url := Json.str "https://partner.example/offer"
        meta := [("lender", Json.str "payme"), ("mobile", Json.null),
          ("campaign_id", Json.null)] }, cacheAfterPayMe, 1) ∧
      hasKey [("lender", Json.str "payme"), ("mobile", Json.null),
        ("campaign_id", Json.null)] "fallback" = false :=
  ⟨rfl, rfl⟩

/-- C2, amended: for every token whose remote lookup yields a valid row
with string partner `lname` and whose partner config loads as a
non-empty dict with string-or-absent presentation fields, the resolver
returns the merged record: title is the config's title if non-empty
else `Your <partner> loan preview is ready`; description is the
config's description else the empty string; image and theme color are
the config's if non-empty else the system defaults; target and
canonical URL both equal the row's destination; and the metadata
carries no `fallback` entry at all (the claim's `fallback = false` does
not hold — the success path omits the key, it does not store `false`). -/
theorem c2_config_merge (env : DabEnv) (cache : LruTtlCache) (t : String)
    (row : Row) (lname : String) (cfields : List (String × Json)) (cache1 : LruTtlCache)
    (tS dS iS cS : String)
    (h1 : pyStrip t ≠ "")
    (h2 : _dab_lookup env (pyStrip t) = .ok (some row))
    (h3 : row.lender = Json.str lname)
    (h4 : _load_lender_json env.disk env.now cache lname = (some (Json.obj cfields), cache1))
    (h5 : (Json.obj cfields).truthy = true)
    (ht : (jget cfields "title").asOptStr = some tS)
    (hd : (jget cfields "description").asOptStr = some dS)
    (hi : (jget cfields "image_url").asOptStr = some iS)
    (hc : (jget cfields "theme_color").asOptStr = some cS) :
    get_redirect_preview env cache (some t) =
      .ok (some {
        token := pyStrip t
        title := Json.str (if tS = "" then "Your " ++ lname ++ " loan preview is ready" else tS)
        description := Json.str dS
        image_url := Json.str (if iS = "" then env.defaultImage else iS)
        theme_color := Json.str (if cS = "" then env.defaultColor else cS)
        target_url := row.destination_url
        canonical_url := row.destination_url
        meta := [("lender", Json.str lname), ("mobile", row.mobile),
          ("campaign_id", row.campaign_id)] }, cache1, 1) ∧
      hasKey [("lender", Json.str lname), ("mobile", row.mobile),
        ("campaign_id", row.campaign_id)] "fallback" = false := by
  have h0 : t ≠ "" := fun he => h1 (by rw [he]; rfl)
  constructor
  · simp only [get_redirect_preview, if_neg h0, if_neg h1, h2, h3, h4, h5,
      Bool.not_true, Bool.false_eq_true, if_false]
    rw [pyOr_of_asOptStr ht, pyOr_str_empty hd, pyOr_of_asOptStr hi, pyOr_of_asOptStr hc]
    simp only [apply_ite Json.str]
  · rfl

/-- C2 witness: the merge evaluated end to end on the token `PCAE7a`
with `env2`: config title and image win, description and theme color
fall back to `""` and the system default, and the metadata has no
`fallback` key. -/
theorem c2_config_merge_witness :
    get_redirect_preview env2 emptyCache (some "PCAE7a") =
      .ok (some {
        token := "PCAE7a"
        title := Json.str "Check your PayMe offer"
        description := Json.str ""
        image_url := Json.str "https://cdn/payme.jpg"
        theme_color := Json.str "#0E5DF2"
        target_url := Json.str "https://partner.example/offer"
        canonical_url := Json.str "https://partner.example/offer"
        meta := [("lender", Json.str "payme"), ("mobile", Json.null),
          ("campaign_id", Json.null)] }, cacheAfterPayMe, 1) := by
  have h := (c2_config_merge env2 emptyCache "PCAE7a" rowPayMe "payme"
    [("title", Json.str "Check your PayMe offer"),
     ("image_url", Json.str "https://cdn/payme.jpg")]
    cacheAfterPayMe "Check your PayMe offer" "" "https://cdn/payme.jpg" ""
    (by decide) rfl rfl rfl rfl rfl rfl rfl rfl).1
  rw [h]
  rfl

/-- C3: for every token whose remote lookup yields a valid row with
string partner `lname` but whose partner config is absent or fails to
load (`_load_lender_json` returns `None`), the resolver still returns a
record — generic title and description, the system default image URL
and theme color, target and canonical URL equal to the row's
destination, and metadata `fallback = true`. -/
theorem c3_config_missing (env : DabEnv) (cache : LruTtlCache) (t : String) (row : Row)
    (lname : String) (cache1 : LruTtlCache)
    (h1 : pyStrip t ≠ "")
    (h2 : _dab_lookup env (pyStrip t) = .ok (some row))
    (h3 : row.lender = Json.str lname)
    (h4 : _load_lender_json env.disk env.now cache lname = (none, cache1)) :
    get_redirect_preview env cache (some t) =
      .ok (some {
        token := pyStrip t
        title := Json.str "Your loan preview is ready"
        description := Json.str "Tap to view your personalised loan offer."
        image_url := Json.str env.defaultImage
        theme_color := Json.str env.defaultColor
        target_url := row.destination_url
        canonical_url := row.destination_url
        meta := [("lender", Json.str lname), ("mobile", row.mobile),
          ("campaign_id", row.campaign_id), ("fallback", Json.bool true)] }, cache1, 1) := by
  have h0 : t ≠ "" := fun he => h1 (by rw [he]; rfl)
  simp [get_redirect_preview, if_neg h0, if_neg h1, h2, h3, h4, Json.truthy]

/-- C3 witness: on the whitespace-wrapped token ` PCAE7a ` with `env3`
(partner `ghost`, no config on disk) the resolver still returns a
record with the system defaults, the row's destination, and
`fallback = true`. -/
theorem c3_config_missing_witness :
    get_redirect_preview env3 emptyCache (some " PCAE7a ") =
      .ok (some {
        token := "PCAE7a"
        title := Json.str "Your loan preview is ready"
        description := Json.str "Tap to view your personalised loan offer."
        image_url := Json.str "https://cdn/default-hero.jpg"
        theme_color := Json.str "#0E5DF2"
        target_url := Json.str "https://partner.example/offer"
        canonical_url := Json.str "https://partner.example/offer"
        meta := [("lender", Json.str "ghost"), ("mobile", Json.null),
          ("campaign_id", Json.null), ("fallback", Json.bool true)] }, emptyCache, 1) := by
  have h := c3_config_missing env3 emptyCache " PCAE7a "
    ⟨Json.str "https://partner.example/offer", Json.str "ghost", Json.null, Json.null⟩
    "ghost" emptyCache (by decide) rfl rfl rfl
  rw [h]
  rfl

theorem dropWhile_dropWhile (p : Char → Bool) :
    ∀ l : List Char, (l.dropWhile p).dropWhile p = l.dropWhile p
  | [] => rfl
  | c :: cs => by
      rw [List.dropWhile_cons]
      by_cases h : p c = true
      · rw [if_pos h]
        exact dropWhile_dropWhile p cs
      · rw [if_neg h, List.dropWhile_cons, if_neg h]

theorem head_dropWhile_not (p : Char → Bool) :
    ∀ (l : List Char) (c : Char) (cs : List Char), l.dropWhile p = c :: cs → p c = false
  | [], c, cs, h => by cases h
  | a :: t, c, cs, h => by
      rw [List.dropWhile_cons] at h
      cases hpa : p a with
      | true =>
        rw [if_pos hpa] at h
        exact head_dropWhile_not p t c cs h
      | false =>
        rw [if_neg (by simp [hpa])] at h
        injection h with h1 _
        rw [← h1]
        exact hpa

theorem rstrip_decomp (p : Char → Bool) (l : List Char) :
    l = (l.reverse.dropWhile p).reverse ++ (l.reverse.takeWhile p).reverse := by
  have h := List.takeWhile_append_dropWhile (p := p) (l := l.reverse)
  have h2 := congrArg List.reverse h
  rw [List.reverse_append, List.reverse_reverse] at h2
  exact h2.symm

theorem stripL_idem (p : Char → Bool) (l : List Char) :
    (((((l.dropWhile p).reverse.dropWhile p).reverse).dropWhile p).reverse.dropWhile p).reverse =
      ((l.dropWhile p).reverse.dropWhile p).reverse := by
  have hstep : ∀ c cs, ((l.dropWhile p).reverse.dropWhile p).reverse = c :: cs →
      p c = false := by
    intro c cs hr
    have ht := rstrip_decomp p (l.dropWhile p)
    rw [hr] at ht
    exact head_dropWhile_not p l c (cs ++ ((l.dropWhile p).reverse.takeWhile p).reverse) ht
  cases hr : ((l.dropWhile p).reverse.dropWhile p).reverse with
  | nil => rfl
  | cons c cs =>
    have hpc := hstep c cs hr
    rw [List.dropWhile_cons, if_neg (by simp [hpc]), ← hr, List.reverse_reverse,
      dropWhile_dropWhile]

theorem pyStrip_idem (s : String) : pyStrip (pyStrip s) = pyStrip s :=
  congrArg String.mk (stripL_idem pyIsSpace s.data)

/-- C10: resolving a token behaves exactly like resolving its
whitespace-trimmed form (the resolver strips first, so added
surrounding whitespace changes nothing), and every record the resolver
returns carries the trimmed token, not the raw input, in its `token`
field. -/
theorem c10_token_trimming (env : DabEnv) (cache : LruTtlCache) (t : String) :
    get_redirect_preview env cache (some t) =
        get_redirect_preview env cache (some (pyStrip t)) ∧
      (∀ (pv : RedirectPreview) (c1 : LruTtlCache) (n : Nat),
        get_redirect_preview env cache (some t) = .ok (some pv, c1, n) →
          pv.token = pyStrip t) := by
  constructor
  · by_cases h0 : t = ""
    · subst h0; rfl
    · by_cases h1 : pyStrip t = ""
      · rw [h1]
        simp [get_redirect_preview, if_neg h0, h1]
      · have hidem := pyStrip_idem t
        simp only [get_redirect_preview, if_neg h0, if_neg h1, hidem]
  · intro pv c1 n h
    simp only [get_redirect_preview] at h
    repeat' split at h
    all_goals first
      | (simp only [Except.ok.injEq, Prod.mk.injEq, Option.some.injEq] at h
         obtain ⟨hpv, -⟩ := h
         rw [← hpv])
      | simp at h

/-- C10 witness: on the concrete whitespace-wrapped token ` PCAE7a `
the resolver agrees with the trimmed token, and the record it returns
(which is `pvGhost`) carries the trimmed token. -/
theorem c10_token_trimming_witness :
    (get_redirect_preview env3 emptyCache (some " PCAE7a ") =
        get_redirect_preview env3 emptyCache (some (pyStrip " PCAE7a "))) ∧
      pvGhost.token = pyStrip " PCAE7a " :=
  ⟨(c10_token_trimming env3 emptyCache " PCAE7a ").1,
   (c10_token_trimming env3 emptyCache " PCAE7a ").2 pvGhost emptyCache 1 rfl⟩

end Purview

